import Mathlib

/-!
Verification of the conversational routing and relevance-matching engine of a
WhatsApp FAQ bot (`app/faq_manager.py` and `app/bot.py`).

Python strings are embedded as lists of Unicode code points (`PyStr`), Python
floats as rationals (every score increment is a multiple of 0.5, so float
arithmetic in the source is exact and `ℚ` is a faithful model), and the
external collaborators (WhatsApp transport, OpenAI client, file system) as
explicit parameters.
-/

/-- A Python string, as its list of Unicode code points. -/
abbrev PyStr := List Nat

/-- Code points of a Lean string literal, used to transcribe the concrete
Russian strings of the source. -/
def pyOfString (s : String) : PyStr := s.toList.map Char.toNat

/-- Whitespace test used by Python's `str.split()` / `str.strip()`
(ASCII whitespace: space, tab, newline, vertical tab, form feed, carriage
return). -/
def isWs (c : Nat) : Bool :=
  c == 32 || c == 9 || c == 10 || c == 11 || c == 12 || c == 13

/-- `isPre w s` is true when `w` is a leading segment of `s`
(helper for the substring test). -/
def isPre : PyStr → PyStr → Bool
  | [], _ => true
  | _ :: _, [] => false
  | a :: as, b :: bs => a == b && isPre as bs

/-- Python's `w in s` substring test on strings. -/
def pyIn (w : PyStr) : PyStr → Bool
  | [] => w.isEmpty
  | b :: bs => isPre w (b :: bs) || pyIn w bs

/-- `w` occurs contiguously inside `s`. -/
def SubStr (w s : PyStr) : Prop := ∃ l r, l ++ w ++ r = s

/-- Python's `str.split()`: split on runs of whitespace, dropping empty
pieces.  `acc` holds the current word reversed. -/
def splitAux : PyStr → PyStr → List PyStr
  | [], acc => if acc.isEmpty then [] else [acc.reverse]
  | c :: cs, acc =>
    if isWs c then
      if acc.isEmpty then splitAux cs [] else acc.reverse :: splitAux cs []
    else splitAux cs (c :: acc)

/-- Python's `str.split()` with no separator argument. -/
def pySplitWs (s : PyStr) : List PyStr := splitAux s []

/-- Python's `str.strip()`: drop leading and trailing whitespace. -/
def pyStrip (s : PyStr) : PyStr :=
  (((s.dropWhile isWs).reverse).dropWhile isWs).reverse

/-- Python's `str.lower()` restricted to the character ranges occurring in
this repository (ASCII letters and the Cyrillic block used by the data). -/
def lowerChar (c : Nat) : Nat :=
  if 65 ≤ c ∧ c ≤ 90 then c + 32
  else if 1040 ≤ c ∧ c ≤ 1071 then c + 32
  else if c = 1025 then 1105
  else c

/-- Python's `str.upper()` on the same character ranges. -/
def upperChar (c : Nat) : Nat :=
  if 97 ≤ c ∧ c ≤ 122 then c - 32
  else if 1072 ≤ c ∧ c ≤ 1103 then c - 32
  else if c = 1105 then 1025
  else c

/-- `str.lower()` on a whole string. -/
def lowerStr (s : PyStr) : PyStr := s.map lowerChar

/-- `str.upper()` on a whole string. -/
def upperStr (s : PyStr) : PyStr := s.map upperChar

/-! ### The FAQ data model (`app/faq_manager.py`) -/

/-- One FAQ record, as stored in `faq_data` (the `.get` defaults of the
source applied: a missing key reads as `0` / `''` / `[]`). -/
structure FAQItem where
  id : Int
  question : PyStr
  answer : PyStr
  keywords : List PyStr
deriving DecidableEq

/-- `FAQManager._calculate_relevance_score`: the query argument is expected
already lowercased by the caller (`search_faq`).  Scores are rationals; all
increments in the source are multiples of 0.5, so float arithmetic there is
exact and this model is faithful. -/
def calculateRelevanceScore (query : PyStr) (item : FAQItem) : ℚ :=
  let s1 := item.keywords.foldl
    (fun s kw => if pyIn (lowerStr kw) query then s + 3 else s) (0 : ℚ)
  let question := lowerStr item.question
  let queryWords := pySplitWs query
  let s2 := queryWords.foldl
    (fun s w =>
      if 2 < w.length then
        (if pyIn w question then s + 2
         else if (pySplitWs question).any (fun qw => pyIn w qw) then s + 1
         else s)
      else s) s1
  let answer := lowerStr item.answer
  queryWords.foldl
    (fun s w => if 2 < w.length && pyIn w answer then s + (1/2 : ℚ) else s) s2

/-- The scorer as the claim states it: a sum of three independent
contributions (keyword hits ×3, per-token question contribution 2/1/0,
answer hits ×0.5). -/
def scoreClaimSum (query : PyStr) (item : FAQItem) : ℚ :=
  3 * ((item.keywords.filter (fun kw => pyIn (lowerStr kw) query)).length : ℚ)
  + ((pySplitWs query).map (fun w =>
      if 2 < w.length then
        (if pyIn w (lowerStr item.question) then (2 : ℚ)
         else if (pySplitWs (lowerStr item.question)).any
             (fun qw => pyIn w qw) then 1
         else 0)
      else 0)).sum
  + (1/2 : ℚ) * (((pySplitWs query).filter
      (fun w => 2 < w.length && pyIn w (lowerStr item.answer))).length : ℚ)

/-- The scorer with the dead 1.0 partial-match branch removed. -/
def calculateRelevanceScoreSimplified (query : PyStr) (item : FAQItem) : ℚ :=
  let s1 := item.keywords.foldl
    (fun s kw => if pyIn (lowerStr kw) query then s + 3 else s) (0 : ℚ)
  let question := lowerStr item.question
  let queryWords := pySplitWs query
  let s2 := queryWords.foldl
    (fun s w =>
      if 2 < w.length then
        (if pyIn w question then s + 2 else s)
      else s) s1
  let answer := lowerStr item.answer
  queryWords.foldl
    (fun s w => if 2 < w.length && pyIn w answer then s + (1/2 : ℚ) else s) s2



/-! ### FAQ search (`FAQManager.search_faq`) -/

/-- Scoring as `search_faq` applies it: the raw query is lowercased once and
passed to `_calculate_relevance_score`. -/
def scoreForQuery (query : PyStr) (item : FAQItem) : ℚ :=
  calculateRelevanceScore (lowerStr query) item

/-- The `(score, faq_item)` pairs accumulated by the loop of `search_faq`,
annotated with the original position of each entry so that the stability of
the sort can be expressed. -/
def scoredEntries (query : PyStr) (data : List FAQItem) :
    List (ℚ × Nat × FAQItem) :=
  (data.enum.filter (fun p => decide (0 < scoreForQuery query p.2))).map
    (fun p => (scoreForQuery query p.2, p.1, p.2))

/-- Ordering used to model Python's stable
`sort(key=lambda x: x[0], reverse=True)`: a stable descending sort by score
is exactly a sort by the lexicographic order (score descending, original
position ascending). -/
def keyLe (a b : ℚ × Nat × FAQItem) : Prop :=
  b.1 < a.1 ∨ (a.1 = b.1 ∧ a.2.1 ≤ b.2.1)

instance (a b : ℚ × Nat × FAQItem) : Decidable (keyLe a b) := by
  unfold keyLe
  infer_instance

/-- Insert into a `keyLe`-sorted list. -/
def insertSorted (x : ℚ × Nat × FAQItem) :
    List (ℚ × Nat × FAQItem) → List (ℚ × Nat × FAQItem)
  | [] => [x]
  | y :: ys => if keyLe x y then x :: y :: ys else y :: insertSorted x ys

/-- Sort by `keyLe` (insertion sort).  Since `keyLe` is a total order and the
original positions in a `scoredEntries` list are distinct, any sorting
algorithm agreeing with `keyLe` produces this output, so this models
Python's Timsort faithfully. -/
def sortDesc : List (ℚ × Nat × FAQItem) → List (ℚ × Nat × FAQItem)
  | [] => []
  | x :: xs => insertSorted x (sortDesc xs)

/-- The fully sorted scored list of `search_faq`, before truncation. -/
def sortedScored (query : PyStr) (data : List FAQItem) :
    List (ℚ × Nat × FAQItem) :=
  sortDesc (scoredEntries query data)

/-- `FAQManager.search_faq`: guard on empty query / empty collection, score,
keep positive scores, stable-sort descending, truncate, project the items. -/
def searchFaq (query : PyStr) (data : List FAQItem) (maxResults : Nat) :
    List FAQItem :=
  if query.isEmpty || data.isEmpty then []
  else ((sortedScored query data).take maxResults).map (fun x => x.2.2)

/-! ### FAQ collection mutation (`add_faq_item` / `update_faq_item` /
`delete_faq_item`).  File writes always succeed in this pure model except
where an explicit `writeOk` flag says otherwise; the boolean result is the
source's return value. -/

/-- Python's `max(l, default=d)`. -/
def pyMaxD (l : List Int) (d : Int) : Int :=
  match l with
  | [] => d
  | x :: xs => xs.foldl max x

/-- `FAQManager.add_faq_item`: validate, normalize keywords, assign
`max(ids, default=0) + 1`, append, save. -/
def addFaqItem (data : List FAQItem) (question answer : PyStr)
    (keywords : Option (List PyStr)) : List FAQItem × Bool :=
  if (pyStrip question).isEmpty then (data, false)
  else if (pyStrip answer).isEmpty then (data, false)
  else
    let kws := ((keywords.getD []).filter
      (fun kw => !(pyStrip kw).isEmpty)).map pyStrip
    let newId := pyMaxD (data.map (fun e => e.id)) 0 + 1
    (data ++ [{ id := newId, question := pyStrip question,
                answer := pyStrip answer, keywords := kws }], true)

/-- `FAQManager.update_faq_item`: replace the supplied fields of the first
entry with the given id, without any validation of the new values. -/
def updateFaqItem : List FAQItem → Int → Option PyStr → Option PyStr →
    Option (List PyStr) → List FAQItem × Bool
  | [], _, _, _, _ => ([], false)
  | e :: rest, fid, q?, a?, kws? =>
    if e.id = fid then
      ({ e with
         question := q?.getD e.question
         answer := a?.getD e.answer
         keywords := kws?.getD e.keywords } :: rest, true)
    else
      let p := updateFaqItem rest fid q? a? kws?
      (e :: p.1, p.2)

/-- `FAQManager.delete_faq_item`: keep the entries with a different id;
report success when the collection shrank. -/
def deleteFaqItem (data : List FAQItem) (fid : Int) : List FAQItem × Bool :=
  let d := data.filter (fun e => !(e.id == fid))
  (d, decide (d.length < data.length))

/-- The specified collection invariant: ids unique and ≥ 1, question and
answer non-empty after trimming. -/
def faqInvariant (data : List FAQItem) : Prop :=
  (∀ e ∈ data, 1 ≤ e.id ∧ ¬ pyStrip e.question = [] ∧
    ¬ pyStrip e.answer = []) ∧
  (data.map (fun e => e.id)).Nodup

instance (data : List FAQItem) : Decidable (faqInvariant data) := by
  unfold faqInvariant
  infer_instance

/-! ### Loading and persistence (`load_faq` / `_create_default_faq` /
`save_faq`).  The file system is modelled by a `ReadResult` describing what
reading and JSON-parsing the backing document yields, and by a `writeOk`
flag for the default-file write; JSON serialisation followed by parsing is
modelled as the identity. -/

/-- Outcome of reading and parsing the backing JSON document. `okDoc faq?`
is a parsed document, whose `faq` key may be absent (read back as `[]` by
`data.get('faq', [])`). -/
inductive ReadResult where
  | fileNotFound : ReadResult
  | parseError : ReadResult
  | okDoc : Option (List FAQItem) → ReadResult

/-- The built-in default FAQ of `_create_default_faq`, transcribed from the
source. -/
def defaultFaq : List FAQItem :=
  [ { id := 1,
      question := pyOfString (r"Как оформить заказ?"),
      answer := pyOfString (r"Для оформления заказа свяжитесь с нашим менеджером или оставьте заявку на сайте. Мы перезвоним в течение 30 минут! 📞"),
      keywords := [pyOfString (r"заказ"), pyOfString (r"оформить"),
        pyOfString (r"купить"), pyOfString (r"заказать")] },
    { id := 2,
      question := pyOfString (r"Какие способы оплаты доступны?"),
      answer := pyOfString (r"Мы принимаем наличные, банковские карты, переводы и онлайн-платежи. Выберите удобный способ! 💳"),
      keywords := [pyOfString (r"оплата"), pyOfString (r"способы"),
        pyOfString (r"платить"), pyOfString (r"деньги"),
        pyOfString (r"карта")] },
    { id := 3,
      question := pyOfString (r"Сколько времени занимает доставка?"),
      answer := pyOfString (r"Доставка по городу занимает 1-2 дня, по области 2-3 дня. Точные сроки уточняйте у менеджера! 🚚"),
      keywords := [pyOfString (r"доставка"), pyOfString (r"сроки"),
        pyOfString (r"время"), pyOfString (r"когда"),
        pyOfString (r"быстро")] },
    { id := 4,
      question := pyOfString (r"Есть ли гарантия на товар?"),
      answer := pyOfString (r"Да! На все товары предоставляется официальная гарантия производителя. Подробности уточняйте при заказе ✅"),
      keywords := [pyOfString (r"гарантия"), pyOfString (r"warranty"),
        pyOfString (r"качество"), pyOfString (r"замена")] },
    { id := 5,
      question := pyOfString (r"Как связаться с поддержкой?"),
      answer := pyOfString (r"Вы можете написать нам здесь в WhatsApp, позвонить или отправить email. Мы всегда на связи! 📞📧"),
      keywords := [pyOfString (r"поддержка"), pyOfString (r"связаться"),
        pyOfString (r"контакты"), pyOfString (r"телефон"),
        pyOfString (r"помощь")] } ]

/-- `FAQManager._create_default_faq`: write the default document and adopt
it in memory; on a write failure the in-memory collection is untouched.
Returns the new collection and the document written, if any. -/
def createDefaultFaq (current : List FAQItem) (writeOk : Bool) :
    List FAQItem × Option (List FAQItem) :=
  if writeOk then (defaultFaq, some defaultFaq) else (current, none)

/-- `FAQManager.load_faq`: returns the new in-memory collection, the boolean
result of the source function, and the document written to disk (if any). -/
def loadFaq (current : List FAQItem) (r : ReadResult) (writeOk : Bool) :
    List FAQItem × Bool × Option (List FAQItem) :=
  match r with
  | ReadResult.okDoc faq? => (faq?.getD [], true, none)
  | ReadResult.fileNotFound =>
    let p := createDefaultFaq current writeOk
    (p.1, false, p.2)
  | ReadResult.parseError => (current, false, none)

/-- What a subsequent `load_faq` sees after `save_faq` wrote `data`:
`json.dump` followed by `json.load` reproduces the document. -/
def savedDoc (data : List FAQItem) : ReadResult := ReadResult.okDoc (some data)

/-! ### The bot router (`app/bot.py`) -/

/-- Per-user session state (`WhatsAppBot.user_sessions` values). -/
structure Session where
  greeted : Bool
  messageCount : Nat
  lastMessageTime : Option Nat
  topics : List PyStr
deriving DecidableEq

/-- The session `_get_user_session` creates on first contact. -/
def initSession : Session :=
  { greeted := false, messageCount := 0, lastMessageTime := none,
    topics := [] }

/-- The external OpenAI collaborator, as an opaque-to-the-router triple of
total functions: `classify_intent` always returns a string (it degrades to
`"other"` internally), `generate_greeting_response` always returns a string,
`generate_faq_response` may return `None` (modelled as `none`). -/
structure Collab where
  classifyIntent : PyStr → PyStr
  generateGreeting : Option PyStr → PyStr
  generateFaqResponse : PyStr → List FAQItem → Option PyStr

def greetingLabel : PyStr := pyOfString (r"greeting")

def questionLabel : PyStr := pyOfString (r"question")

def supportLabel : PyStr := pyOfString (r"support")

def orderLabel : PyStr := pyOfString (r"order")

def complaintLabel : PyStr := pyOfString (r"complaint")

/-- `WhatsAppBot._get_fallback_response`. -/
def fallbackResponse : PyStr := pyOfString (r"К сожалению, я не нашел точной информации по вашему вопросу в нашей базе знаний 😔

Пожалуйста, обратитесь к нашему менеджеру для получения подробной консультации. Мы обязательно поможем! 

📞 Менеджер ответит в рабочее время
💬 Или опишите вопрос подробнее")

/-- `WhatsAppBot._get_general_help_response`. -/
def generalHelpResponse : PyStr := pyOfString (r"Привет! 👋 Я бот-помощник нашей компании.

Я могу помочь с:
• Информацией о товарах и услугах
• Условиями заказа и доставки  
• Способами оплаты
• Гарантийными вопросами

Просто задайте ваш вопрос, и я постараюсь помочь! 😊")

/-- `WhatsAppBot._get_error_response`. -/
def errorResponse : PyStr := pyOfString (r"Извините, произошла техническая ошибка ⚠️

Пожалуйста, попробуйте повторить запрос через несколько минут или обратитесь к нашему менеджеру.

Приносим извинения за неудобства! 🙏")

/-- Python truthiness of an `Optional[str]`: `None` and the empty string are
falsy. -/
def pyTruthy : Option PyStr → Bool
  | none => false
  | some s => !s.isEmpty

/-- `WhatsAppBot._process_user_message`, for one message of one user: takes
the user's current session, returns the reply and the updated session.
`_update_user_stats` is inlined (it increments `message_count` and resets
`last_message_time`).  The enclosing `try/except` of the source never fires
in this pure model, so the error-template branch is unreachable here. -/
def processUserMessage (c : Collab) (faqData : List FAQItem)
    (session : Session) (message : PyStr) (userName : Option PyStr) :
    Option PyStr × Session :=
  let intent := c.classifyIntent message
  if intent = greetingLabel ∧ session.greeted = false then
    (some (c.generateGreeting userName), { session with greeted := true })
  else if intent = questionLabel ∨ intent = supportLabel ∨
      intent = orderLabel ∨ intent = complaintLabel then
    let relevant := searchFaq message faqData 3
    if relevant.isEmpty then (some fallbackResponse, session)
    else
      let response := c.generateFaqResponse message relevant
      if pyTruthy response then
        (response, { session with
          messageCount := session.messageCount + 1
          lastMessageTime := none })
      else (some fallbackResponse, session)
  else
    let relevant := searchFaq message faqData 2
    if relevant.isEmpty then (some generalHelpResponse, session)
    else
      let response := c.generateFaqResponse message relevant
      if pyTruthy response then (response, session)
      else (some generalHelpResponse, session)



/-- Concrete collaborator used for witnesses: classifies everything as a
greeting, generates a fixed greeting, never generates an answer. -/
def witCollabGreet : Collab :=
  { classifyIntent := fun _ => greetingLabel
    generateGreeting := fun _ => pyOfString (r"hi")
    generateFaqResponse := fun _ _ => none }

/-- Concrete collaborator used for witnesses: returns the unrecognized
label `"xyz"` for every message. -/
def witCollabXyz : Collab :=
  { classifyIntent := fun _ => pyOfString (r"xyz")
    generateGreeting := fun _ => pyOfString (r"hi")
    generateFaqResponse := fun _ _ => none }

/-- Concrete collaborator used for witnesses: classifies everything as a
question and always generates the empty (falsy) answer. -/
def witCollabQ : Collab :=
  { classifyIntent := fun _ => questionLabel
    generateGreeting := fun _ => pyOfString (r"hi")
    generateFaqResponse := fun _ _ => some [] }


/-! ### Lemmas -/


/-! ### Basic lemmas about the string primitives -/

theorem isPre_iff (w : PyStr) : ∀ s, isPre w s = true ↔ ∃ r, w ++ r = s := by
  induction w with
  | nil =>
    intro s
    simp [isPre]
  | cons a as ih =>
    intro s
    cases s with
    | nil => simp [isPre]
    | cons b bs =>
      simp only [isPre, Bool.and_eq_true, beq_iff_eq, ih bs]
      constructor
      · rintro ⟨rfl, r, rfl⟩
        exact ⟨r, rfl⟩
      · rintro ⟨r, h⟩
        rw [List.cons_append] at h
        cases h
        exact ⟨rfl, r, rfl⟩

theorem pyIn_iff (w : PyStr) : ∀ s, pyIn w s = true ↔ SubStr w s := by
  intro s
  induction s with
  | nil =>
    simp only [pyIn, List.isEmpty_iff, SubStr]
    constructor
    · rintro rfl
      exact ⟨[], [], rfl⟩
    · rintro ⟨l, r, h⟩
      rcases List.append_eq_nil.mp h with ⟨h1, h2⟩
      exact (List.append_eq_nil.mp h1).2
  | cons b bs ih =>
    simp only [pyIn, Bool.or_eq_true, isPre_iff, ih, SubStr]
    constructor
    · rintro (⟨r, h⟩ | ⟨l, r, h⟩)
      · exact ⟨[], r, by simpa using h⟩
      · exact ⟨b :: l, r, by simp [h]⟩
    · rintro ⟨l, r, h⟩
      cases l with
      | nil => exact Or.inl ⟨r, by simpa using h⟩
      | cons x xs =>
        rw [List.cons_append, List.cons_append] at h
        cases h
        exact Or.inr ⟨xs, r, rfl⟩

theorem SubStr.trans {a b c : PyStr} (h1 : SubStr a b) (h2 : SubStr b c) :
    SubStr a c := by
  obtain ⟨l1, r1, rfl⟩ := h1
  obtain ⟨l2, r2, rfl⟩ := h2
  exact ⟨l2 ++ l1, r1 ++ r2, by simp⟩

theorem pyIn_trans {a b c : PyStr} (h1 : pyIn a b = true)
    (h2 : pyIn b c = true) : pyIn a c = true :=
  (pyIn_iff a c).mpr (((pyIn_iff a b).mp h1).trans ((pyIn_iff b c).mp h2))

/-- Every piece produced by `splitAux cs acc` occurs contiguously in
`acc.reverse ++ cs`. -/
theorem splitAux_substr : ∀ (cs acc w : PyStr),
    w ∈ splitAux cs acc → SubStr w (acc.reverse ++ cs) := by
  intro cs
  induction cs with
  | nil =>
    intro acc w h
    simp only [splitAux] at h
    by_cases hacc : acc.isEmpty
    · simp [hacc] at h
    · simp only [hacc, if_neg, Bool.false_eq_true, not_false_iff,
        if_false, List.mem_singleton] at h
      subst h
      exact ⟨[], [], by simp⟩
  | cons c cs ih =>
    intro acc w h
    simp only [splitAux] at h
    by_cases hws : isWs c
    · simp only [hws, if_true] at h
      by_cases hacc : acc.isEmpty
      · simp only [hacc, if_true] at h
        obtain ⟨l, r, rfl⟩ := ih [] w (by simpa using h)
        exact ⟨acc.reverse ++ [c] ++ l, r, by simp⟩
      · simp only [hacc, Bool.false_eq_true, if_false, List.mem_cons] at h
        rcases h with rfl | h
        · exact ⟨[], c :: cs, by simp⟩
        · obtain ⟨l, r, rfl⟩ := ih [] w (by simpa using h)
          exact ⟨acc.reverse ++ [c] ++ l, r, by simp⟩
    · simp only [hws, Bool.false_eq_true, if_false] at h
      have := ih (c :: acc) w h
      simpa using this

theorem pyStrip_idem (s : PyStr) : pyStrip (pyStrip s) = pyStrip s := by
  unfold pyStrip
  set t := s.dropWhile isWs with ht
  set u := (t.reverse.dropWhile isWs).reverse with hu
  have htt : t.dropWhile isWs = t := List.dropWhile_idempotent isWs s
  obtain ⟨w, hw⟩ : ∃ w, w ++ t.reverse.dropWhile isWs = t.reverse :=
    List.dropWhile_suffix isWs
  have htu : u ++ w.reverse = t := by
    rw [hu, ← List.reverse_append, hw, List.reverse_reverse]
  have hdu : u.dropWhile isWs = u := by
    cases hu' : u with
    | nil => simp
    | cons x xs =>
      have hxt : t = x :: (xs ++ w.reverse) := by
        rw [← htu, hu']
        simp
      have hx : ¬ (isWs x = true) := by
        intro hx
        rw [hxt] at htt
        simp only [List.dropWhile, hx] at htt
        have hlen := congrArg List.length htt
        rw [List.length_cons] at hlen
        have hle : (List.dropWhile isWs (xs ++ w.reverse)).length ≤
            (xs ++ w.reverse).length := (List.dropWhile_sublist _).length_le
        omega
      simp [List.dropWhile, hx]
  rw [hdu]
  have hru : u.reverse.dropWhile isWs = u.reverse := by
    rw [hu, List.reverse_reverse]
    exact List.dropWhile_idempotent isWs t.reverse
  rw [hru, List.reverse_reverse]

/-- Accumulating fold of per-element contributions equals the initial value plus the sum of contributions. -/
theorem foldl_add_eq {α : Type} (f : α → ℚ) :
    ∀ (l : List α) (init : ℚ),
      l.foldl (fun s x => s + f x) init = init + (l.map f).sum := by
  intro l
  induction l with
  | nil => intro init; simp
  | cons x xs ih =>
    intro init
    simp only [List.foldl_cons, List.map_cons, List.sum_cons, ih]
    ring

/-- Summing an indicator times a constant counts the matches. -/
theorem sum_map_ite_count {α : Type} (p : α → Bool) (k : ℚ) :
    ∀ l : List α,
      (l.map (fun x => if p x then k else 0)).sum =
        k * ((l.filter p).length : ℚ) := by
  intro l
  induction l with
  | nil => simp
  | cons x xs ih =>
    by_cases h : p x
    · simp [List.filter_cons, h, ih]
      ring
    · simp [List.filter_cons, h, ih]

/-- Folding a guarded accumulation counts the matching elements. -/
theorem foldl_ite_add {α : Type} (p : α → Bool) (k : ℚ) :
    ∀ (l : List α) (init : ℚ),
      l.foldl (fun s x => if p x then s + k else s) init
        = init + k * ((l.filter p).length : ℚ) := by
  intro l
  induction l with
  | nil => intro init; simp
  | cons x xs ih =>
    intro init
    by_cases h : p x
    · simp only [List.foldl_cons, List.filter_cons, h, if_true, ih,
        List.length_cons]
      push_cast
      ring
    · simp only [List.foldl_cons, List.filter_cons, h, Bool.false_eq_true,
        if_false, ih]

/-- The whole-question hit test subsumes the per-word partial test: a word
of `question.split()` is a contiguous part of `question`. -/
theorem any_split_imp_pyIn {w s : PyStr}
    (h : (pySplitWs s).any (fun qw => pyIn w qw) = true) :
    pyIn w s = true := by
  obtain ⟨qw, hqw, hin⟩ := List.any_eq_true.mp h
  have h1 : SubStr qw s := by
    have := splitAux_substr s [] qw (by simpa [pySplitWs] using hqw)
    simpa using this
  exact pyIn_trans hin ((pyIn_iff qw s).mpr h1)

/-- C1.  The relevance scorer, applied to a lowercased query and an FAQ
entry, returns exactly the sum of: 3.0 per keyword occurring in the query;
per query token longer than 2 characters, 2.0 for a whole-question hit else
1.0 for a word-of-question hit (mutually exclusive); plus 0.5 per token
longer than 2 characters hitting the answer; 0 when nothing matches. -/
theorem claim_C1_relevance_score_exact_sum (q : PyStr) (item : FAQItem) :
    calculateRelevanceScore q item = scoreClaimSum q item := by
  have hmid : ∀ init : ℚ, (pySplitWs q).foldl
      (fun s w =>
        if 2 < w.length then
          (if pyIn w (lowerStr item.question) then s + 2
           else if (pySplitWs (lowerStr item.question)).any
               (fun qw => pyIn w qw) then s + 1
           else s)
        else s) init
      = init + ((pySplitWs q).map (fun w =>
          if 2 < w.length then
            (if pyIn w (lowerStr item.question) then (2 : ℚ)
             else if (pySplitWs (lowerStr item.question)).any
                 (fun qw => pyIn w qw) then 1
             else 0)
          else 0)).sum := by
    intro init
    rw [List.foldl_ext _ (fun s w => s + (if 2 < w.length then
        (if pyIn w (lowerStr item.question) then (2 : ℚ)
         else if (pySplitWs (lowerStr item.question)).any
             (fun qw => pyIn w qw) then 1
         else 0)
        else 0)) init ?_]
    · exact foldl_add_eq _ _ init
    · intro s w _
      by_cases h1 : 2 < w.length
      · by_cases h2 : pyIn w (lowerStr item.question)
        · simp [h1, h2]
        · by_cases h3 : (pySplitWs (lowerStr item.question)).any
              (fun qw => pyIn w qw)
          · simp [h1, h2, h3]
          · simp [h1, h2, h3]
      · simp [h1]
  simp only [calculateRelevanceScore, scoreClaimSum]
  rw [foldl_ite_add (fun kw => pyIn (lowerStr kw) q) 3 item.keywords 0]
  rw [hmid]
  rw [foldl_ite_add
    (fun w => decide (2 < w.length) && pyIn w (lowerStr item.answer)) (1/2)
    (pySplitWs q)]
  ring

/-- C10.  The 1.0 partial-match branch of the scorer never fires: a token
contained in a single whitespace-delimited word of the question is contained
in the whole question, so the scorer equals the simplified function with
that branch removed. -/
theorem claim_C10_partial_branch_dead (q : PyStr) (item : FAQItem) :
    calculateRelevanceScore q item
      = calculateRelevanceScoreSimplified q item := by
  simp only [calculateRelevanceScore, calculateRelevanceScoreSimplified]
  congr 1
  apply List.foldl_ext
  intro s w _
  by_cases h1 : 2 < w.length
  · by_cases h2 : pyIn w (lowerStr item.question)
    · simp [h1, h2]
    · have h3 : ((pySplitWs (lowerStr item.question)).any
          (fun qw => pyIn w qw)) = false := by
        cases h : (pySplitWs (lowerStr item.question)).any
            (fun qw => pyIn w qw) with
        | false => rfl
        | true => exact absurd (any_split_imp_pyIn h) h2
      simp [h1, h2, h3]
  · simp [h1]

/-- Lowercasing after uppercasing is lowercasing. -/
theorem lowerChar_upperChar (c : Nat) :
    lowerChar (upperChar c) = lowerChar c := by
  unfold lowerChar upperChar
  split_ifs <;> omega

/-- C9.  Scoring as applied by `search_faq` is deterministic (it is a pure
function) and case-insensitive: uppercasing the raw query does not change
the score. -/
theorem claim_C9_score_case_insensitive (q : PyStr) (item : FAQItem) :
    scoreForQuery q item = scoreForQuery (upperStr q) item := by
  unfold scoreForQuery
  have h : lowerStr (upperStr q) = lowerStr q := by
    simp only [lowerStr, upperStr, List.map_map]
    exact List.map_congr_left (fun c _ => lowerChar_upperChar c)
  rw [h]

/-- `keyLe` is total. -/
theorem keyLe_total (a b : ℚ × Nat × FAQItem) : keyLe a b ∨ keyLe b a := by
  unfold keyLe
  rcases lt_trichotomy a.1 b.1 with h | h | h
  · exact Or.inr (Or.inl h)
  · rcases Nat.le_total a.2.1 b.2.1 with h2 | h2
    · exact Or.inl (Or.inr ⟨h, h2⟩)
    · exact Or.inr (Or.inr ⟨h.symm, h2⟩)
  · exact Or.inl (Or.inl h)

/-- `keyLe` is transitive. -/
theorem keyLe_trans (a b c : ℚ × Nat × FAQItem) :
    keyLe a b → keyLe b c → keyLe a c := by
  unfold keyLe
  rintro (h1 | ⟨h1, h1'⟩) (h2 | ⟨h2, h2'⟩)
  · exact Or.inl (h2.trans h1)
  · exact Or.inl (by rw [← h2]; exact h1)
  · exact Or.inl (by rw [h1]; exact h2)
  · exact Or.inr ⟨h1.trans h2, h1'.trans h2'⟩

theorem insertSorted_perm (l : List (ℚ × Nat × FAQItem))
    (x : ℚ × Nat × FAQItem) : (insertSorted x l).Perm (x :: l) := by
  induction l with
  | nil => simp [insertSorted]
  | cons y ys ih =>
    by_cases h : keyLe x y
    · simp [insertSorted, h]
    · simp only [insertSorted, if_neg h]
      exact (ih.cons y).trans (List.Perm.swap x y ys)

theorem sortDesc_perm (l : List (ℚ × Nat × FAQItem)) :
    (sortDesc l).Perm l := by
  induction l with
  | nil => simp [sortDesc]
  | cons x xs ih =>
    exact (insertSorted_perm (sortDesc xs) x).trans (ih.cons x)

theorem pairwise_insertSorted (x : ℚ × Nat × FAQItem)
    (l : List (ℚ × Nat × FAQItem)) (h : l.Pairwise keyLe) :
    (insertSorted x l).Pairwise keyLe := by
  induction l with
  | nil => simp [insertSorted]
  | cons y ys ih =>
    rw [List.pairwise_cons] at h
    by_cases hxy : keyLe x y
    · simp only [insertSorted, if_pos hxy]
      rw [List.pairwise_cons]
      refine ⟨?_, List.pairwise_cons.mpr h⟩
      intro z hz
      rcases List.mem_cons.mp hz with rfl | hz
      · exact hxy
      · exact keyLe_trans x y z hxy (h.1 z hz)
    · simp only [insertSorted, if_neg hxy]
      rw [List.pairwise_cons]
      refine ⟨?_, ih h.2⟩
      intro z hz
      have hz' := (insertSorted_perm ys x).mem_iff.mp hz
      rcases List.mem_cons.mp hz' with rfl | hz''
      · exact (keyLe_total z y).resolve_left hxy
      · exact h.1 z hz''

theorem sortDesc_pairwise (l : List (ℚ × Nat × FAQItem)) :
    (sortDesc l).Pairwise keyLe := by
  induction l with
  | nil => simp [sortDesc]
  | cons x xs ih => exact pairwise_insertSorted x (sortDesc xs) ih

/-- Membership in the scored list is exactly: the entry sits at that
position of the collection and its score is positive. -/
theorem mem_scoredEntries {q : PyStr} {data : List FAQItem} {s : ℚ} {i : Nat}
    {e : FAQItem} :
    (s, i, e) ∈ scoredEntries q data ↔
      data[i]? = some e ∧ s = scoreForQuery q e ∧ 0 < s := by
  simp only [scoredEntries, List.mem_map, List.mem_filter]
  constructor
  · rintro ⟨⟨i', e'⟩, ⟨hmem, hpos⟩, heq⟩
    rw [Prod.mk.injEq, Prod.mk.injEq] at heq
    obtain ⟨hs, hi, he⟩ := heq
    subst hs; subst hi; subst he
    exact ⟨List.mk_mem_enum_iff_getElem?.mp hmem, rfl,
      of_decide_eq_true hpos⟩
  · rintro ⟨hget, rfl, hpos⟩
    exact ⟨(i, e), ⟨List.mk_mem_enum_iff_getElem?.mpr hget,
      decide_eq_true hpos⟩, rfl⟩

/-- The original positions in the scored list are pairwise distinct. -/
theorem nodup_indices_scoredEntries (q : PyStr) (data : List FAQItem) :
    ((scoredEntries q data).map (fun x => x.2.1)).Nodup := by
  have h1 : (scoredEntries q data).map (fun x => x.2.1)
      = (data.enum.filter
          (fun p => decide (0 < scoreForQuery q p.2))).map (fun p => p.1) := by
    simp [scoredEntries, List.map_map]
  rw [h1]
  have h3 : List.Sublist
      ((data.enum.filter
        (fun p => decide (0 < scoreForQuery q p.2))).map (fun p => p.1))
      (data.enum.map (fun p => p.1)) :=
    (List.filter_sublist _).map _
  have h4 : (data.enum.map (fun p => p.1)).Nodup := by
    have := List.enum_map_fst data
    simp only [Prod.fst] at this
    rw [show (fun p : Nat × FAQItem => p.1) = Prod.fst from rfl, this]
    exact List.nodup_range _
  exact h4.sublist h3

/-- C2.  `search_faq` returns `[]` on an empty query or collection;
otherwise it returns exactly the entries with strictly positive score
against the lowercased query, in non-increasing score order with equal
scores kept in collection order (stability), truncated to `maxResults`.
The second conjunct characterises the scored pool exactly; the third is
sortedness plus stability of the full sorted pool; the fourth ties the
returned list to that pool; the fifth is the truncation bound. -/
theorem claim_C2_search_spec (q : PyStr) (data : List FAQItem) (n : Nat) :
    (q = [] ∨ data = [] → searchFaq q data n = [])
    ∧ (∀ (s : ℚ) (i : Nat) (e : FAQItem),
        (s, i, e) ∈ sortedScored q data ↔
          (data[i]? = some e ∧ s = scoreForQuery q e ∧ 0 < s))
    ∧ List.Pairwise (fun a b => b.1 < a.1 ∨ (a.1 = b.1 ∧ a.2.1 < b.2.1))
        (sortedScored q data)
    ∧ (¬(q = [] ∨ data = []) →
        searchFaq q data n
          = ((sortedScored q data).take n).map (fun x => x.2.2))
    ∧ (searchFaq q data n).length ≤ n := by
  refine ⟨?_, ?_, ?_, ?_, ?_⟩
  · rintro (rfl | rfl) <;> simp [searchFaq]
  · intro s i e
    unfold sortedScored
    rw [(sortDesc_perm (scoredEntries q data)).mem_iff]
    exact mem_scoredEntries
  · have hs := sortDesc_pairwise (scoredEntries q data)
    have hnd : ((sortedScored q data).map (fun x => x.2.1)).Nodup := by
      have hperm := (sortDesc_perm (scoredEntries q data)).map
        (fun x : ℚ × Nat × FAQItem => x.2.1)
      exact hperm.nodup_iff.mpr (nodup_indices_scoredEntries q data)
    have hne : List.Pairwise (fun a b : ℚ × Nat × FAQItem => a.2.1 ≠ b.2.1)
        (sortedScored q data) := List.pairwise_map.mp hnd
    have := (sortDesc_pairwise (scoredEntries q data)).and hne
    refine this.imp ?_
    rintro a b ⟨hle, hne'⟩
    rcases hle with h | ⟨h, h'⟩
    · exact Or.inl h
    · exact Or.inr ⟨h, lt_of_le_of_ne h' hne'⟩
  · intro h
    push_neg at h
    have hq : q.isEmpty = false := by
      simp [List.isEmpty_iff, h.1]
    have hd : data.isEmpty = false := by
      simp [List.isEmpty_iff, h.2]
    simp [searchFaq, hq, hd]
  · unfold searchFaq
    split
    · simp
    · rw [List.length_map, List.length_take]
      exact min_le_left _ _

/-- Witness for C2 at concrete inputs. -/
theorem claim_C2_search_spec_witness :
    searchFaq [] defaultFaq 3 = []
    ∧ searchFaq (pyOfString (r"заказ")) defaultFaq 3
        = ((sortedScored (pyOfString (r"заказ")) defaultFaq).take 3).map
            (fun x => x.2.2) := by
  refine ⟨(claim_C2_search_spec [] defaultFaq 3).1 (Or.inl rfl), ?_⟩
  exact (claim_C2_search_spec (pyOfString (r"заказ")) defaultFaq 3).2.2.2.1
    (by decide)

/-- Routing when the first-greeting guard fires. -/
theorem process_greeting_branch (c : Collab) (faqData : List FAQItem)
    (s : Session) (msg : PyStr) (nm : Option PyStr)
    (h1 : c.classifyIntent msg = greetingLabel) (h2 : s.greeted = false) :
    processUserMessage c faqData s msg nm
      = (some (c.generateGreeting nm), { s with greeted := true }) := by
  unfold processUserMessage
  rw [if_pos ⟨h1, h2⟩]

/-- Routing for the four FAQ intents. -/
theorem process_faq_branch (c : Collab) (faqData : List FAQItem)
    (s : Session) (msg : PyStr) (nm : Option PyStr)
    (h1 : ¬(c.classifyIntent msg = greetingLabel ∧ s.greeted = false))
    (h2 : c.classifyIntent msg = questionLabel ∨
      c.classifyIntent msg = supportLabel ∨
      c.classifyIntent msg = orderLabel ∨
      c.classifyIntent msg = complaintLabel) :
    processUserMessage c faqData s msg nm
      = (if (searchFaq msg faqData 3).isEmpty then (some fallbackResponse, s)
         else if pyTruthy (c.generateFaqResponse msg (searchFaq msg faqData 3))
         then (c.generateFaqResponse msg (searchFaq msg faqData 3),
           { s with
             messageCount := s.messageCount + 1
             lastMessageTime := none })
         else (some fallbackResponse, s)) := by
  unfold processUserMessage
  rw [if_neg h1, if_pos h2]

/-- Routing for every other intent. -/
theorem process_other_branch (c : Collab) (faqData : List FAQItem)
    (s : Session) (msg : PyStr) (nm : Option PyStr)
    (h1 : ¬(c.classifyIntent msg = greetingLabel ∧ s.greeted = false))
    (h2 : ¬(c.classifyIntent msg = questionLabel ∨
      c.classifyIntent msg = supportLabel ∨
      c.classifyIntent msg = orderLabel ∨
      c.classifyIntent msg = complaintLabel)) :
    processUserMessage c faqData s msg nm
      = (if (searchFaq msg faqData 2).isEmpty then
           (some generalHelpResponse, s)
         else if pyTruthy (c.generateFaqResponse msg (searchFaq msg faqData 2))
         then (c.generateFaqResponse msg (searchFaq msg faqData 2), s)
         else (some generalHelpResponse, s)) := by
  unfold processUserMessage
  rw [if_neg h1, if_neg h2]

/-- The `greeted` flag after one routed message: it is set exactly when it
already was set or the classifier said `greeting`; it is never cleared. -/
theorem process_greeted_eq (c : Collab) (faqData : List FAQItem)
    (s : Session) (msg : PyStr) (nm : Option PyStr) :
    ((processUserMessage c faqData s msg nm).2).greeted
      = (s.greeted || decide (c.classifyIntent msg = greetingLabel)) := by
  by_cases h1 : c.classifyIntent msg = greetingLabel ∧ s.greeted = false
  · rw [process_greeting_branch c faqData s msg nm h1.1 h1.2]
    simp [h1.1]
  · have hrhs : (s.greeted || decide (c.classifyIntent msg = greetingLabel))
        = s.greeted := by
      by_cases hg : c.classifyIntent msg = greetingLabel
      · have hs : s.greeted = true := by
          cases hb : s.greeted with
          | false => exact absurd ⟨hg, hb⟩ h1
          | true => rfl
        simp [hs]
      · simp [hg]
    rw [hrhs]
    by_cases h2 : c.classifyIntent msg = questionLabel ∨
        c.classifyIntent msg = supportLabel ∨
        c.classifyIntent msg = orderLabel ∨
        c.classifyIntent msg = complaintLabel
    · rw [process_faq_branch c faqData s msg nm h1 h2]
      split
      · rfl
      · split <;> rfl
    · rw [process_other_branch c faqData s msg nm h1 h2]
      split
      · rfl
      · split <;> rfl

/-- C3.  For a new user and the intent sequence `[greeting, greeting]`, only
the first message takes the greeting short-circuit (returning the
generator's greeting and setting `greeted`); the second falls through to the
default routing path (2-result search, generated answer or general help);
and the `greeted` flag only ever transitions from `false` to `true`. -/
theorem claim_C3_greeting_short_circuit_once (c : Collab)
    (faqData : List FAQItem) (s0 : Session) (msg1 msg2 : PyStr)
    (name1 name2 : Option PyStr)
    (hg1 : c.classifyIntent msg1 = greetingLabel)
    (hg2 : c.classifyIntent msg2 = greetingLabel)
    (h0 : s0.greeted = false) :
    processUserMessage c faqData s0 msg1 name1
      = (some (c.generateGreeting name1), { s0 with greeted := true })
    ∧ ((searchFaq msg2 faqData 2 = [] ∨
        ¬ pyTruthy (c.generateFaqResponse msg2 (searchFaq msg2 faqData 2))) →
        (processUserMessage c faqData
            (processUserMessage c faqData s0 msg1 name1).2 msg2 name2).1
          = some generalHelpResponse)
    ∧ ((searchFaq msg2 faqData 2 ≠ [] ∧
        pyTruthy (c.generateFaqResponse msg2 (searchFaq msg2 faqData 2))) →
        (processUserMessage c faqData
            (processUserMessage c faqData s0 msg1 name1).2 msg2 name2).1
          = c.generateFaqResponse msg2 (searchFaq msg2 faqData 2))
    ∧ (∀ (s : Session) (msg : PyStr) (nm : Option PyStr),
        ((processUserMessage c faqData s msg nm).2).greeted
          = (s.greeted || decide (c.classifyIntent msg = greetingLabel))) := by
  have h1 := process_greeting_branch c faqData s0 msg1 name1 hg1 h0
  have hn1 : ¬(c.classifyIntent msg2 = greetingLabel ∧
      ((processUserMessage c faqData s0 msg1 name1).2).greeted = false) := by
    rw [h1]
    rintro ⟨-, hfalse⟩
    simp at hfalse
  have hn2 : ¬(c.classifyIntent msg2 = questionLabel ∨
      c.classifyIntent msg2 = supportLabel ∨
      c.classifyIntent msg2 = orderLabel ∨
      c.classifyIntent msg2 = complaintLabel) := by
    rw [hg2]
    decide
  have h2 := process_other_branch c faqData
    (processUserMessage c faqData s0 msg1 name1).2 msg2 name2 hn1 hn2
  refine ⟨h1, ?_, ?_, fun s msg nm => process_greeted_eq c faqData s msg nm⟩
  · rintro (hempty | hfail)
    · rw [h2]
      have : (searchFaq msg2 faqData 2).isEmpty = true := by
        simp [hempty]
      simp [this]
    · rw [h2]
      by_cases hempty : (searchFaq msg2 faqData 2).isEmpty
      · simp [hempty]
      · simp only [Bool.not_eq_true] at hfail
        simp [hempty, hfail]
  · rintro ⟨hne, htr⟩
    rw [h2]
    have hempty : (searchFaq msg2 faqData 2).isEmpty = false := by
      simp [List.isEmpty_iff, hne]
    simp [hempty, htr]

/-- Witness for C3: a concrete new user greeted twice. -/
theorem claim_C3_witness :
    processUserMessage witCollabGreet [] initSession [104] none
      = (some (witCollabGreet.generateGreeting none),
         { initSession with greeted := true })
    ∧ (processUserMessage witCollabGreet []
        (processUserMessage witCollabGreet [] initSession [104] none).2
        [105] none).1 = some generalHelpResponse := by
  have h := claim_C3_greeting_short_circuit_once witCollabGreet []
    initSession [104] [105] none none rfl rfl rfl
  exact ⟨h.1, h.2.1 (Or.inl (by decide))⟩

/-- C7.  For any classifier output that is not a recognized label (greeting
with an ungreeted session, question, support, order, complaint), the router
takes the `other` path: a 2-result search, then either the generated answer
(when matches exist and generation is truthy) or the general-help template,
and never no-response. -/
theorem claim_C7_unrecognized_label_other_path (c : Collab)
    (faqData : List FAQItem) (s : Session) (msg : PyStr) (nm : Option PyStr)
    (hg : c.classifyIntent msg = greetingLabel → s.greeted = true)
    (hu : ¬(c.classifyIntent msg = questionLabel ∨
        c.classifyIntent msg = supportLabel ∨
        c.classifyIntent msg = orderLabel ∨
        c.classifyIntent msg = complaintLabel)) :
    ((searchFaq msg faqData 2 = [] ∨
      ¬ pyTruthy (c.generateFaqResponse msg (searchFaq msg faqData 2))) →
        (processUserMessage c faqData s msg nm).1 = some generalHelpResponse)
    ∧ ((searchFaq msg faqData 2 ≠ [] ∧
        pyTruthy (c.generateFaqResponse msg (searchFaq msg faqData 2))) →
        (processUserMessage c faqData s msg nm).1
          = c.generateFaqResponse msg (searchFaq msg faqData 2))
    ∧ (processUserMessage c faqData s msg nm).1 ≠ none := by
  have h1 : ¬(c.classifyIntent msg = greetingLabel ∧ s.greeted = false) := by
    rintro ⟨hgg, hfalse⟩
    rw [hg hgg] at hfalse
    cases hfalse
  have h2 := process_other_branch c faqData s msg nm h1 hu
  refine ⟨?_, ?_, ?_⟩
  · rintro (hempty | hfail)
    · rw [h2]
      have : (searchFaq msg faqData 2).isEmpty = true := by simp [hempty]
      simp [this]
    · rw [h2]
      by_cases hempty : (searchFaq msg faqData 2).isEmpty
      · simp [hempty]
      · simp only [Bool.not_eq_true] at hfail
        simp [hempty, hfail]
  · rintro ⟨hne, htr⟩
    rw [h2]
    have hempty : (searchFaq msg faqData 2).isEmpty = false := by
      simp [List.isEmpty_iff, hne]
    simp [hempty, htr]
  · rw [h2]
    by_cases hempty : (searchFaq msg faqData 2).isEmpty
    · simp [hempty]
    · by_cases htr : pyTruthy (c.generateFaqResponse msg
          (searchFaq msg faqData 2))
      · simp only [hempty, Bool.false_eq_true, if_false, htr, if_true]
        cases hr : c.generateFaqResponse msg (searchFaq msg faqData 2) with
        | none => rw [hr] at htr; simp [pyTruthy] at htr
        | some t => simp [hr]
      · simp only [Bool.not_eq_true] at htr
        simp [hempty, htr]

/-- Witness for C7: the label `"xyz"` on a fresh session routes to the
general-help template. -/
theorem claim_C7_witness :
    (processUserMessage witCollabXyz defaultFaq initSession
      (pyOfString (r"привет")) none).1 = some generalHelpResponse := by
  exact (claim_C7_unrecognized_label_other_path witCollabXyz defaultFaq
    initSession (pyOfString (r"привет")) none (by decide) (by decide)).1
    (Or.inr (by decide))

/-- C8.  For the intents question/support/order/complaint: when the 3-result
search finds nothing, or the generator fails or returns an empty (falsy)
answer, the router returns the fallback template — which differs from the
general-help template — and the message counter is not incremented; the
counter is incremented exactly when generation succeeds. -/
theorem claim_C8_faq_branch_fallback (c : Collab) (faqData : List FAQItem)
    (s : Session) (msg : PyStr) (nm : Option PyStr)
    (hg : ¬(c.classifyIntent msg = greetingLabel ∧ s.greeted = false))
    (hi : c.classifyIntent msg = questionLabel ∨
      c.classifyIntent msg = supportLabel ∨
      c.classifyIntent msg = orderLabel ∨
      c.classifyIntent msg = complaintLabel) :
    ((searchFaq msg faqData 3 = [] ∨
      ¬ pyTruthy (c.generateFaqResponse msg (searchFaq msg faqData 3))) →
        (processUserMessage c faqData s msg nm).1 = some fallbackResponse
        ∧ ((processUserMessage c faqData s msg nm).2).messageCount
            = s.messageCount)
    ∧ ((searchFaq msg faqData 3 ≠ [] ∧
        pyTruthy (c.generateFaqResponse msg (searchFaq msg faqData 3))) →
        (processUserMessage c faqData s msg nm).1
          = c.generateFaqResponse msg (searchFaq msg faqData 3)
        ∧ ((processUserMessage c faqData s msg nm).2).messageCount
            = s.messageCount + 1)
    ∧ fallbackResponse ≠ generalHelpResponse := by
  have h2 := process_faq_branch c faqData s msg nm hg hi
  refine ⟨?_, ?_, by decide⟩
  · rintro (hempty | hfail)
    · rw [h2]
      have : (searchFaq msg faqData 3).isEmpty = true := by simp [hempty]
      simp [this]
    · rw [h2]
      by_cases hempty : (searchFaq msg faqData 3).isEmpty
      · simp [hempty]
      · simp only [Bool.not_eq_true] at hfail
        simp [hempty, hfail]
  · rintro ⟨hne, htr⟩
    rw [h2]
    have hempty : (searchFaq msg faqData 3).isEmpty = false := by
      simp [List.isEmpty_iff, hne]
    simp [hempty, htr]

/-- Witness for C8: a question with matches whose generated answer is empty
yields the fallback template and leaves the counter unchanged. -/
theorem claim_C8_witness :
    (processUserMessage witCollabQ defaultFaq initSession
      (pyOfString (r"заказ")) none).1 = some fallbackResponse
    ∧ ((processUserMessage witCollabQ defaultFaq initSession
        (pyOfString (r"заказ")) none).2).messageCount
      = initSession.messageCount := by
  exact (claim_C8_faq_branch_fallback witCollabQ defaultFaq initSession
    (pyOfString (r"заказ")) none (by decide) (by decide)).1
    (Or.inr (by decide))

theorem le_foldl_max (xs : List Int) : ∀ a : Int, a ≤ xs.foldl max a := by
  induction xs with
  | nil => intro a; exact le_refl a
  | cons x xs ih =>
    intro a
    exact le_trans (le_max_left a x) (ih (max a x))

theorem mem_le_foldl_max (xs : List Int) :
    ∀ (a y : Int), y ∈ xs → y ≤ xs.foldl max a := by
  induction xs with
  | nil => intro a y hy; cases hy
  | cons x xs ih =>
    intro a y hy
    rcases List.mem_cons.mp hy with rfl | hy
    · exact le_trans (le_max_right a y) (le_foldl_max xs (max a y))
    · exact ih (max a x) y hy

theorem foldl_max_choice (xs : List Int) :
    ∀ a : Int, xs.foldl max a = a ∨ xs.foldl max a ∈ xs := by
  induction xs with
  | nil => intro a; exact Or.inl rfl
  | cons x xs ih =>
    intro a
    rcases ih (max a x) with h | h
    · rw [List.foldl_cons, h]
      rcases max_choice a x with h2 | h2
      · exact Or.inl h2
      · exact Or.inr (by rw [h2]; exact List.mem_cons_self x xs)
    · exact Or.inr (List.mem_cons_of_mem x (by rw [List.foldl_cons]; exact h))

/-- Every member is bounded by `pyMaxD`. -/
theorem mem_le_pyMaxD (l : List Int) (d : Int) : ∀ y ∈ l, y ≤ pyMaxD l d := by
  intro y hy
  cases l with
  | nil => cases hy
  | cons x xs =>
    rcases List.mem_cons.mp hy with rfl | hy
    · exact le_foldl_max xs y
    · exact mem_le_foldl_max xs x y hy

/-- `pyMaxD` is the default or one of the members. -/
theorem pyMaxD_choice (l : List Int) (d : Int) :
    pyMaxD l d = d ∨ pyMaxD l d ∈ l := by
  cases l with
  | nil => exact Or.inl rfl
  | cons x xs =>
    rcases foldl_max_choice xs x with h | h
    · right
      show xs.foldl max x ∈ x :: xs
      rw [h]
      exact List.mem_cons_self x xs
    · right
      show xs.foldl max x ∈ x :: xs
      exact List.mem_cons_of_mem x h

/-- `update_faq_item` never changes the ids. -/
theorem updateFaqItem_ids (data : List FAQItem) (fid : Int)
    (q? a? : Option PyStr) (kws? : Option (List PyStr)) :
    (updateFaqItem data fid q? a? kws?).1.map (fun e => e.id)
      = data.map (fun e => e.id) := by
  induction data with
  | nil => rfl
  | cons x rest ih =>
    by_cases hx : x.id = fid
    · simp [updateFaqItem, hx]
    · simp [updateFaqItem, hx, ih]

/-- `update_faq_item` keeps every entry valid, provided the supplied new
question/answer (if any) are non-empty after trimming. -/
theorem updateFaqItem_preserves_valid (data : List FAQItem) (fid : Int)
    (q? a? : Option PyStr) (kws? : Option (List PyStr))
    (hq : ∀ s, q? = some s → ¬ pyStrip s = [])
    (ha : ∀ s, a? = some s → ¬ pyStrip s = []) :
    (∀ e ∈ data, 1 ≤ e.id ∧ ¬ pyStrip e.question = [] ∧
      ¬ pyStrip e.answer = []) →
    ∀ e ∈ (updateFaqItem data fid q? a? kws?).1,
      1 ≤ e.id ∧ ¬ pyStrip e.question = [] ∧ ¬ pyStrip e.answer = [] := by
  induction data with
  | nil =>
    intro _ e he
    simp [updateFaqItem] at he
  | cons x rest ih =>
    intro hval e he
    by_cases hx : x.id = fid
    · simp only [updateFaqItem, if_pos hx] at he
      rcases List.mem_cons.mp he with rfl | he'
      · have hxv := hval x (List.mem_cons_self x rest)
        refine ⟨hxv.1, ?_, ?_⟩
        · cases hq0 : q? with
          | none => simpa [hq0] using hxv.2.1
          | some s => simpa [hq0] using hq s hq0
        · cases ha0 : a? with
          | none => simpa [ha0] using hxv.2.2
          | some s => simpa [ha0] using ha s ha0
      · exact hval e (List.mem_cons_of_mem x he')
    · simp only [updateFaqItem, if_neg hx] at he
      rcases List.mem_cons.mp he with rfl | he'
      · exact hval e (List.mem_cons_self e rest)
      · exact ih (fun e' he' => hval e' (List.mem_cons_of_mem x he')) e he'

/-- Counterexample to C4 as stated: on a collection satisfying the
invariant, `update_faq_item` accepts an empty replacement question (it
performs no validation), reports success, and leaves an entry whose
question is empty after trimming. -/
theorem claim_C4_counterexample :
    faqInvariant [(FAQItem.mk 1 [97] [98] [])]
    ∧ (updateFaqItem [(FAQItem.mk 1 [97] [98] [])] 1 (some []) none none).2 = true
    ∧ ¬ faqInvariant (updateFaqItem [(FAQItem.mk 1 [97] [98] [])] 1 (some []) none none).1 := by
  refine ⟨by decide, by decide, by decide⟩

/-- C4 (amended).  Starting from a collection in which every entry has a
unique id ≥ 1 and a question and answer non-empty after trimming: `add` and
`delete` preserve the invariant, and `update` preserves the ids (hence
their uniqueness and positivity) unconditionally, but preserves
non-emptiness of question/answer only when the optional replacement values
it is given are themselves non-empty after trimming. -/
theorem claim_C4_amended_invariant_preservation (data : List FAQItem)
    (q a : PyStr) (kws : Option (List PyStr)) (fid : Int)
    (q? a? : Option PyStr) (kws? : Option (List PyStr))
    (hinv : faqInvariant data) :
    faqInvariant (addFaqItem data q a kws).1
    ∧ faqInvariant (deleteFaqItem data fid).1
    ∧ (updateFaqItem data fid q? a? kws?).1.map (fun e => e.id)
        = data.map (fun e => e.id)
    ∧ ((∀ s, q? = some s → ¬ pyStrip s = []) →
       (∀ s, a? = some s → ¬ pyStrip s = []) →
       faqInvariant (updateFaqItem data fid q? a? kws?).1) := by
  refine ⟨?_, ?_, updateFaqItem_ids data fid q? a? kws?, ?_⟩
  · by_cases hq0 : (pyStrip q).isEmpty
    · simpa [addFaqItem, hq0] using hinv
    · by_cases ha0 : (pyStrip a).isEmpty
      · simpa [addFaqItem, hq0, ha0] using hinv
      · have hadd : (addFaqItem data q a kws).1 = data ++
            [{ id := pyMaxD (data.map (fun e => e.id)) 0 + 1
               question := pyStrip q
               answer := pyStrip a
               keywords := ((kws.getD []).filter
                 (fun kw => !(pyStrip kw).isEmpty)).map pyStrip }] := by
          simp [addFaqItem, hq0, ha0]
        rw [hadd]
        have hmax0 : 0 ≤ pyMaxD (data.map (fun e => e.id)) 0 := by
          rcases pyMaxD_choice (data.map (fun e => e.id)) 0 with h | h
          · rw [h]
          · obtain ⟨e', he', hid⟩ := List.mem_map.mp h
            have h1 := (hinv.1 e' he').1
            omega
        constructor
        · intro e he
          rcases List.mem_append.mp he with he | he
          · exact hinv.1 e he
          · rcases List.mem_singleton.mp he with rfl
            refine ⟨by simpa using by omega, ?_, ?_⟩
            · show ¬ pyStrip (pyStrip q) = []
              rw [pyStrip_idem]
              simpa [List.isEmpty_iff] using hq0
            · show ¬ pyStrip (pyStrip a) = []
              rw [pyStrip_idem]
              simpa [List.isEmpty_iff] using ha0
        · rw [List.map_append, List.nodup_append]
          refine ⟨hinv.2, by simp, ?_⟩
          intro y hy
          have hle := mem_le_pyMaxD (data.map (fun e => e.id)) 0 y hy
          simp only [List.map_cons, List.map_nil, List.mem_singleton]
          intro hcontra
          rw [hcontra] at hle
          omega
  · constructor
    · intro e he
      exact hinv.1 e (List.mem_of_mem_filter he)
    · have hsub : List.Sublist
          ((data.filter (fun e => !(e.id == fid))).map (fun e => e.id))
          (data.map (fun e => e.id)) :=
        (List.filter_sublist data).map _
      exact hinv.2.sublist hsub
  · intro hq ha
    refine ⟨updateFaqItem_preserves_valid data fid q? a? kws? hq ha hinv.1,
      ?_⟩
    rw [updateFaqItem_ids data fid q? a? kws?]
    exact hinv.2

/-- Witness for the amended C4 at a concrete collection. -/
theorem claim_C4_witness :
    faqInvariant (addFaqItem [(FAQItem.mk 1 [97] [98] [])] [99] [100] none).1 := by
  exact (claim_C4_amended_invariant_preservation
    [{ id := 1, question := [97], answer := [98], keywords := [] }]
    [99] [100] none 1 none none none (by decide)).1

/-- C5.  `load_faq` on a missing backing document synthesizes and persists
the built-in default set of five entries (covering ordering, payment,
delivery, warranty and support) as the in-memory collection instead of
failing; on malformed content it leaves the in-memory collection unchanged
and reports a parse error (a `false` result with no write). -/
theorem claim_C5_load_missing_and_malformed (current : List FAQItem)
    (w : Bool) :
    loadFaq current ReadResult.fileNotFound true
      = (defaultFaq, false, some defaultFaq)
    ∧ loadFaq current ReadResult.parseError w = (current, false, none)
    ∧ defaultFaq.map (fun e => e.id) = [1, 2, 3, 4, 5]
    ∧ (∃ e ∈ defaultFaq, pyOfString (r"заказ") ∈ e.keywords)
    ∧ (∃ e ∈ defaultFaq, pyOfString (r"оплата") ∈ e.keywords)
    ∧ (∃ e ∈ defaultFaq, pyOfString (r"доставка") ∈ e.keywords)
    ∧ (∃ e ∈ defaultFaq, pyOfString (r"гарантия") ∈ e.keywords)
    ∧ (∃ e ∈ defaultFaq, pyOfString (r"поддержка") ∈ e.keywords) := by
  refine ⟨rfl, rfl, by decide, by decide, by decide, by decide, by decide,
    by decide⟩

/-- C6.  For valid inputs, `add_faq_item` succeeds and, after saving,
reloading the persisted document reproduces the same collection; the added
entry carries id `max(existing ids, default 0) + 1`, the trimmed question
and answer, and the keywords trimmed with empties dropped. -/
theorem claim_C6_add_save_load_roundtrip (data : List FAQItem)
    (q a : PyStr) (kws : Option (List PyStr)) (current : List FAQItem)
    (w : Bool) (hq : ¬ pyStrip q = []) (ha : ¬ pyStrip a = []) :
    (addFaqItem data q a kws).2 = true
    ∧ loadFaq current (savedDoc (addFaqItem data q a kws).1) w
        = ((addFaqItem data q a kws).1, true, none)
    ∧ ∃ e ∈ (addFaqItem data q a kws).1,
        e.id = pyMaxD (data.map (fun x => x.id)) 0 + 1
        ∧ e.question = pyStrip q
        ∧ e.answer = pyStrip a
        ∧ e.keywords = ((kws.getD []).filter
            (fun kw => !(pyStrip kw).isEmpty)).map pyStrip := by
  have hq0 : (pyStrip q).isEmpty = false := by
    simp [List.isEmpty_iff, hq]
  have ha0 : (pyStrip a).isEmpty = false := by
    simp [List.isEmpty_iff, ha]
  have hadd : addFaqItem data q a kws = (data ++
      [{ id := pyMaxD (data.map (fun x => x.id)) 0 + 1
         question := pyStrip q
         answer := pyStrip a
         keywords := ((kws.getD []).filter
           (fun kw => !(pyStrip kw).isEmpty)).map pyStrip }], true) := by
    simp [addFaqItem, hq0, ha0]
  rw [hadd]
  refine ⟨rfl, rfl, ?_⟩
  refine ⟨_, List.mem_append_right data (List.mem_singleton_self _),
    rfl, rfl, rfl, rfl⟩

/-- Witness for C6 at a concrete addition. -/
theorem claim_C6_witness :
    (addFaqItem [] [97] [98] (some [[32, 99, 32], []])).2 = true
    ∧ ∃ e ∈ (addFaqItem [] [97] [98] (some [[32, 99, 32], []])).1,
        e.id = pyMaxD (([] : List FAQItem).map (fun x => x.id)) 0 + 1
        ∧ e.question = pyStrip [97]
        ∧ e.answer = pyStrip [98]
        ∧ e.keywords = (((some [[32, 99, 32], []]).getD []).filter
            (fun kw => !(pyStrip kw).isEmpty)).map pyStrip := by
  have h := claim_C6_add_save_load_roundtrip [] [97] [98]
    (some [[32, 99, 32], []]) [] true (by decide) (by decide)
  exact ⟨h.1, h.2.2⟩
